import Mathlib

/-!
Verification of the timetracker Activity Capture & Integration Engine.

The definitions below are a shallow embedding of the Rust sources under
`src/app/src-tauri/src/`:

* `save_activity`, `tick` embed the recorder loop of `lib.rs`
  (`save_activity`, `start_watcher_thread`); timestamps are modelled as
  `Int` seconds of local wall-clock time (the source stores
  `DateTime<Local>` values and subtracts them with `num_seconds()`).
* `get_activities`, `get_app_summary`, `get_domain_summary` embed the
  SQL query commands of `lib.rs`; the SQLite table is modelled as a
  `List ActivityRecord` and the ISO-8601 `TEXT` timestamps as `String`
  with the lexicographic order that SQLite uses for `TEXT` comparison.
  Floating-point percentages are modelled as exact rationals.
* `get_source_text`, `extract_ticket_id`, `sync_time_entry`,
  `compileRules`, `load_from_config` embed
  `plugins/integrations/redmine.rs`, `plugins/mod.rs` and
  `plugins/config.rs`.  The regular-expression engine of the `regex`
  crate is modelled on the fragment of patterns actually at stake
  (a fixed literal/class head followed by one captured, greedy
  character-class repetition), with the crate's leftmost-match,
  greedy-capture semantics.
-/

namespace TimeTracker

/-- A row of the `activities` table as written by the recorder loop
(`save_activity` in `lib.rs`); timestamps in seconds. -/
structure Row where
  process_name : String
  window_title : String
  domain : Option String
  start_time : Int
  end_time : Int
  duration_seconds : Int
deriving Repr, DecidableEq

/-- Embedding of `save_activity` (`lib.rs` lines 576-601): drop the candidate
when the process name is empty or the duration `end - start` is below one
second, otherwise append one row whose cached duration is `end - start`. -/
def save_activity (store : List Row) (process_name window_title : String)
    (domain : Option String) (start now : Int) : List Row :=
  if process_name = "" then store
  else
    let duration := now - start
    if duration < 1 then store
    else store ++ [⟨process_name, window_title, domain, start, now, duration⟩]

/-- The mutable state of the watcher thread (`start_watcher_thread` in
`lib.rs`): the last observed `(process, title, domain)` triple and the
start time of the currently open interval, `none` when no interval is
open. -/
structure RecState where
  last_process : String
  last_title : String
  last_domain : Option String
  activity_start : Option Int
deriving Repr, DecidableEq

/-- The state after the disabled branch of the loop body: previous
activity saved, `last_*` cleared, `activity_start` taken. -/
def clearedState : RecState := ⟨"", "", none, none⟩

/-- One iteration of the watcher loop body (`start_watcher_thread`,
`lib.rs` lines 542-572), parameterised by the tracking flag, the result
of `get_active_window_info()` and the current time `now`. -/
def tick (tracking : Bool) (probe : Option (String × String × Option String))
    (now : Int) (s : RecState) (store : List Row) : RecState × List Row :=
  if tracking = false then
    match s.activity_start with
    | some st =>
        (clearedState, save_activity store s.last_process s.last_title s.last_domain st now)
    | none => (clearedState, store)
  else
    match probe with
    | none => (s, store)
    | some (p, t, d) =>
        if p ≠ s.last_process ∨ t ≠ s.last_title ∨ d ≠ s.last_domain then
          let store1 :=
            match s.activity_start with
            | some st =>
                save_activity store s.last_process s.last_title s.last_domain st now
            | none => store
          (⟨p, t, d, some now⟩, store1)
        else (s, store)

/-- Invariant of the watcher state: whenever no interval is open the
`last_*` fields are cleared.  It holds at thread start (`lib.rs` lines
537-540) and is preserved by every loop iteration. -/
def RecInv (s : RecState) : Prop :=
  s.activity_start = none → s = clearedState

/-- Lexicographic comparison of character lists: the order SQLite uses
for `TEXT` comparison (byte order, which agrees with character order on
the ASCII timestamp strings at stake). -/
def charListLe : List Char → List Char → Bool
  | [], _ => true
  | _ :: _, [] => false
  | a :: as, b :: bs =>
      if a < b then true
      else if b < a then false
      else charListLe as bs

/-- SQLite `<=` on `TEXT` timestamps. -/
def strLe (a b : String) : Bool := charListLe a.data b.data

/-- A row of the `activities` table as returned by the query commands of
`lib.rs` (`ActivityRecord`), with ISO-8601 second-precision local
timestamps stored as `TEXT`. -/
structure ActivityRecord where
  id : Int
  process_name : String
  window_title : String
  domain : Option String
  start_time : String
  end_time : String
  duration_seconds : Int
deriving Repr, DecidableEq

/-- `AppSummary` of `lib.rs`; the `f64` percentage is modelled as an
exact rational. -/
structure AppSummary where
  process_name : String
  total_seconds : Int
  percentage : ℚ
deriving Repr, DecidableEq

/-- `DomainSummary` of `lib.rs`. -/
structure DomainSummary where
  domain : String
  total_seconds : Int
  percentage : ℚ
deriving Repr, DecidableEq

/-- `format!("\x7b\x7dT00:00:00", date)` of the query commands. -/
def startOfDay (date : String) : String := date ++ "T00:00:00"

/-- `format!("\x7b\x7dT23:59:59", date)` of the query commands. -/
def endOfDay (date : String) : String := date ++ "T23:59:59"

/-- The `WHERE start_time >= ?1 AND start_time <= ?2` filter shared by
the three query commands. -/
def inDay (date : String) (r : ActivityRecord) : Bool :=
  strLe (startOfDay date) r.start_time && strLe r.start_time (endOfDay date)

/-- The rows of the store that the day filter keeps. -/
def dayRows (db : List ActivityRecord) (date : String) : List ActivityRecord :=
  db.filter (inDay date)

/-- `ORDER BY start_time ASC`. -/
def byStart (a b : ActivityRecord) : Prop := strLe a.start_time b.start_time = true

instance : DecidableRel byStart :=
  fun a b => inferInstanceAs (Decidable (strLe a.start_time b.start_time = true))

/-- Embedding of the `get_activities` command (`lib.rs` lines 312-343):
day filter, then `ORDER BY start_time ASC`. -/
def get_activities (db : List ActivityRecord) (date : String) : List ActivityRecord :=
  List.insertionSort byStart (dayRows db date)

/-- `SUM(duration_seconds)` over the rows carrying the given key. -/
def groupTotal (rows : List ActivityRecord) (keyf : ActivityRecord → String)
    (k : String) : Int :=
  ((rows.filter fun r => keyf r = k).map fun r => r.duration_seconds).sum

/-- `GROUP BY` with summed durations: one entry per distinct key. -/
def groupSums (rows : List ActivityRecord) (keyf : ActivityRecord → String) :
    List (String × Int) :=
  ((rows.map keyf).dedup).map fun k => (k, groupTotal rows keyf k)

/-- `ORDER BY total DESC`. -/
def byTotalDesc (a b : String × Int) : Prop := b.2 ≤ a.2

instance : DecidableRel byTotalDesc := fun a b => inferInstanceAs (Decidable (b.2 ≤ a.2))

/-- Grouped and ranked rows, as the `GROUP BY ... ORDER BY total DESC`
statements of the two summary commands return them. -/
def rankGroups (rows : List ActivityRecord) (keyf : ActivityRecord → String) :
    List (String × Int) :=
  List.insertionSort byTotalDesc (groupSums rows keyf)

/-- The percentage computation shared by `get_app_summary` and
`get_domain_summary`: `if total_seconds > 0 { secs / total * 100.0 } else
{ 0.0 }`, the `f64` arithmetic modelled exactly over the rationals. -/
def pct (total secs : Int) : ℚ :=
  if 0 < total then (secs : ℚ) / (total : ℚ) * 100 else 0

/-- Embedding of the `get_app_summary` command (`lib.rs` lines 346-385). -/
def get_app_summary (db : List ActivityRecord) (date : String) : List AppSummary :=
  let sorted := rankGroups (dayRows db date) fun r => r.process_name
  let total := (sorted.map fun g => g.2).sum
  sorted.map fun g => ⟨g.1, g.2, pct total g.2⟩

/-- The `domain IS NOT NULL AND domain != ''` filter of
`get_domain_summary`. -/
def hasDomain (r : ActivityRecord) : Bool :=
  match r.domain with
  | some d => d ≠ ""
  | none => false

/-- The `GROUP BY domain` key of a row (rows reaching it always carry a
domain). -/
def domainKey (r : ActivityRecord) : String := r.domain.getD ""

/-- Embedding of the `get_domain_summary` command (`lib.rs` lines
388-427). -/
def get_domain_summary (db : List ActivityRecord) (date : String) : List DomainSummary :=
  let sorted := rankGroups ((dayRows db date).filter hasDomain) domainKey
  let total := (sorted.map fun g => g.2).sum
  sorted.map fun g => ⟨g.1, g.2, pct total g.2⟩

/-- The end-to-end scenario row of the specification: a half-hour
browser activity on 2024-01-01. -/
def demoRow : ActivityRecord :=
  ⟨1, "chrome.exe", "Bug report", some "tracker.example.com",
    "2024-01-01T10:00:00", "2024-01-01T10:30:00", 1800⟩

/-- A one-row store for concrete evaluations. -/
def demoDb : List ActivityRecord := [demoRow]

/-- `ActivityInfo` of `plugins/traits.rs`: the record handed to the
plugin layer. -/
structure ActivityInfo where
  id : Int
  process_name : String
  window_title : String
  domain : Option String
  start_time : String
  end_time : String
  duration_seconds : Int
deriving Repr, DecidableEq

/-- `SyncResult` of `plugins/traits.rs`. -/
structure SyncResult where
  success : Bool
  message : String
  external_id : Option String
deriving Repr, DecidableEq

/-- One character atom of the modelled regex fragment: a literal
character or the `\d` class. -/
inductive RChar where
  | lit : Char → RChar
  | digit : RChar
deriving Repr, DecidableEq

/-- Whether a character satisfies an atom. -/
def RChar.matchesChar : RChar → Char → Bool
  | .lit c, x => x = c
  | .digit, x => x.isDigit

/-- The fragment of the external `regex` crate modelled here: a fixed
sequence of single-character atoms followed by one capture group `(C+)`
or `(C*)` over a single atom `C`.  It covers the patterns the claims
are about, e.g. `#(\d+)` and `ISSUE-(\d+)`, with the crate's
leftmost-match and greedy-capture semantics. -/
structure SimpleRegex where
  head : List RChar
  grp : RChar
  atLeastOne : Bool
deriving Repr, DecidableEq

/-- Consume the fixed head of the pattern at the current position. -/
def matchHead : List RChar → List Char → Option (List Char)
  | [], rest => some rest
  | _ :: _, [] => none
  | a :: as, c :: cs => if RChar.matchesChar a c then matchHead as cs else none

/-- Greedy maximal run of the captured atom. -/
def takeRun (a : RChar) : List Char → List Char
  | [] => []
  | c :: cs => if RChar.matchesChar a c then c :: takeRun a cs else []

/-- Anchored match attempt at the current position, returning the greedy
capture of group 1 when the whole pattern matches here. -/
def captureAt (re : SimpleRegex) (l : List Char) : Option (List Char) :=
  match matchHead re.head l with
  | none => none
  | some rest =>
      let run := takeRun re.grp rest
      if re.atLeastOne && run.isEmpty then none else some run

/-- `Regex::captures` followed by `captures.get(1)`: the capture of
group 1 at the leftmost position where the pattern matches (in the
modelled fragment group 1 participates in every match). -/
def captureFirst (re : SimpleRegex) : List Char → Option (List Char)
  | [] => captureAt re []
  | c :: cs =>
      match captureAt re (c :: cs) with
      | some g => some g
      | none => captureFirst re cs

/-- `RedmineIntegration::get_source_text` (`redmine.rs` lines 81-88):
select the activity field a rule reads, defaulting to the window title
for any unrecognized selector. -/
def get_source_text (activity : ActivityInfo) (source : String) : String :=
  if source = "window_title" then activity.window_title
  else if source = "process_name" then activity.process_name
  else if source = "domain" then activity.domain.getD ""
  else activity.window_title

/-- `RedmineIntegration::extract_ticket_id` (`redmine.rs` lines
105-115): walk the compiled rules in configured order and return the
first group-1 capture. -/
def extract_ticket_id (rules : List (SimpleRegex × String))
    (activity : ActivityInfo) : Option String :=
  match rules with
  | [] => none
  | (re, source) :: rest =>
      match captureFirst re (get_source_text activity source).data with
      | some g => some (String.mk g)
      | none => extract_ticket_id rest activity

/-- Modelled from the spec for comparison with `extract_ticket_id`: the
first rule whose pattern matches the selected source text with a
NON-EMPTY first capture group wins; a rule whose capture is empty does
not win. -/
def extract_ticket_id_spec (rules : List (SimpleRegex × String))
    (activity : ActivityInfo) : Option String :=
  match rules with
  | [] => none
  | (re, source) :: rest =>
      match captureFirst re (get_source_text activity source).data with
      | some g =>
          if g.isEmpty then extract_ticket_id_spec rest activity
          else some (String.mk g)
      | none => extract_ticket_id_spec rest activity

/-- The pattern `#(\d+)` compiled. -/
def hashPattern : SimpleRegex := ⟨[.lit '#'], .digit, true⟩

/-- The pattern `ISSUE-(\d+)` compiled. -/
def issuePattern : SimpleRegex :=
  ⟨[.lit 'I', .lit 'S', .lit 'S', .lit 'U', .lit 'E', .lit '-'], .digit, true⟩

/-- The pattern `x(y*)` compiled: its group 1 participates in a match
of `"x"` while capturing the empty string (the regex crate reports
`Some("")` for group 1 there). -/
def emptyCapPattern : SimpleRegex := ⟨[.lit 'x'], .lit 'y', false⟩

/-- An activity whose title carries two ticket markers. -/
def demoActivity : ActivityInfo :=
  ⟨1, "Code.exe", "Fix #42 ISSUE-7", none,
    "2024-01-01T10:00:00", "2024-01-01T10:30:00", 1800⟩

/-- An activity whose title is exactly `"x"`. -/
def cexActivity : ActivityInfo :=
  ⟨2, "Code.exe", "x", none, "2024-01-01T10:00:00", "2024-01-01T10:30:00", 60⟩

/-- `ExtractionRule` of `plugins/config.rs`. -/
structure ExtractionRule where
  pattern : String
  source : String
deriving Repr, DecidableEq

/-- `RedmineConfig` of `plugins/config.rs`. -/
structure RedmineConfig where
  url : String
  api_key : String
  default_activity_id : Option Int
  rules : List ExtractionRule
deriving Repr, DecidableEq

/-- The rule-compilation step of `RedmineIntegration::new` (`redmine.rs`
lines 62-70): `filter_map` keeping, in configured order, the rules whose
pattern compiles.  `compile` abstracts `Regex::new(..).ok()` of the
external regex crate. -/
def compileRules (compile : String → Option SimpleRegex)
    (rules : List ExtractionRule) : List (SimpleRegex × String) :=
  rules.filterMap fun rule => (compile rule.pattern).map fun re => (re, rule.source)

/-- `RedmineIntegration` (`redmine.rs` lines 49-55); the stateless HTTP
client is not modelled. -/
structure RedmineIntegration where
  name : String
  enabled : Bool
  config : RedmineConfig
  rules : List (SimpleRegex × String)
deriving Repr, DecidableEq

/-- `RedmineIntegration::new` (`redmine.rs` lines 58-79): compiles the
rules and always returns `Ok`. -/
def RedmineIntegration.new (compile : String → Option SimpleRegex)
    (name : String) (enabled : Bool) (config : RedmineConfig) :
    Except String RedmineIntegration :=
  Except.ok ⟨name, enabled, config, compileRules compile config.rules⟩

/-- `IntegrationConfig` of `plugins/config.rs` (single variant). -/
inductive IntegrationConfig where
  | redmine : RedmineConfig → IntegrationConfig
deriving Repr, DecidableEq

/-- `IntegrationEntry` of `plugins/config.rs`. -/
structure IntegrationEntry where
  name : String
  enabled : Bool
  config : IntegrationConfig
deriving Repr, DecidableEq

/-- `PluginManager::load_from_config` (`plugins/mod.rs` lines 28-49):
one plugin per enabled entry, construction errors propagated with `?`. -/
def load_from_config (compile : String → Option SimpleRegex) :
    List IntegrationEntry → Except String (List RedmineIntegration)
  | [] => Except.ok []
  | entry :: rest =>
      if entry.enabled then
        match entry.config with
        | IntegrationConfig.redmine rc =>
            match RedmineIntegration.new compile entry.name entry.enabled rc with
            | Except.ok plugin =>
                match load_from_config compile rest with
                | Except.ok plugins => Except.ok (plugin :: plugins)
                | Except.error e => Except.error e
            | Except.error e => Except.error e
      else load_from_config compile rest

/-- One HTTP response as the sync client observes it. -/
structure HttpResponse where
  status : Nat
  body : String
deriving Repr, DecidableEq

/-- `reqwest::StatusCode::is_success()`: 2xx. -/
def isSuccessStatus (s : Nat) : Bool := 200 ≤ s && s < 300

/-- The `time_entry` JSON payload built by `sync_time_entry`
(`redmine.rs` lines 132-143); `hours` is `duration_seconds as f64 /
3600.0`, modelled exactly over the rationals. -/
structure TimeEntryData where
  issue_id : Int
  hours : ℚ
  activity_id : Option Int
  comments : String
  spent_on : String
deriving Repr, DecidableEq

/-- Value of a digit run, most significant first. -/
def digitsValAux (acc : Nat) : List Char → Nat
  | [] => acc
  | c :: cs => digitsValAux (acc * 10 + (c.toNat - '0'.toNat)) cs

/-- `str::parse::<i64>()` on the ticket id (`redmine.rs` lines 122-124):
an optional sign followed by a non-empty digit run (the i64 overflow
bound is not modelled; the claims use small ids). -/
def parseI64 (s : String) : Option Int :=
  match s.data with
  | [] => none
  | '-' :: ds =>
      if ds ≠ [] && ds.all Char.isDigit then some (-(digitsValAux 0 ds : Int)) else none
  | '+' :: ds =>
      if ds ≠ [] && ds.all Char.isDigit then some ((digitsValAux 0 ds : Int)) else none
  | ds => if ds.all Char.isDigit then some ((digitsValAux 0 ds : Int)) else none

/-- Consume an expected character sequence, returning the remainder. -/
def dropPre : List Char → List Char → Option (List Char)
  | [], rest => some rest
  | _ :: _, [] => none
  | p :: ps, c :: cs => if c = p then dropPre ps cs else none

/-- Modelled from the spec: serde_json decoding of the create-time-entry
response body into `TimeEntryResponse` (the serde_json crate is external
to the repository); recognizes the canonical serialization
`{"time_entry":{"id":N}}` of such a body. -/
def decodeTimeEntryId (body : String) : Option Int :=
  match dropPre "\x7b\"time_entry\":\x7b\"id\":".data body.data with
  | none => none
  | some rest =>
      let run := rest.takeWhile Char.isDigit
      let remaining := rest.dropWhile Char.isDigit
      if run ≠ [] && remaining = "\x7d\x7d".data then
        some ((digitsValAux 0 run : Int))
      else none

/-- The prefix of the start time before the first `T`:
`activity.start_time.split('T').next().unwrap_or("")`. -/
def takeUntilT : List Char → List Char
  | [] => []
  | c :: cs => if c = 'T' then [] else c :: takeUntilT cs

/-- The calendar-date part of a stored timestamp. -/
def datePart (s : String) : String := String.mk (takeUntilT s.data)

/-- The request payload `sync_time_entry` builds for a parsed issue id
(`redmine.rs` lines 126-143). -/
def sync_request (cfg : RedmineConfig) (activity : ActivityInfo)
    (issue_id : Int) : TimeEntryData :=
  ⟨issue_id, (activity.duration_seconds : ℚ) / 3600, cfg.default_activity_id,
    activity.process_name ++ " - " ++ activity.window_title,
    datePart activity.start_time⟩

/-- `RedmineIntegration::sync_time_entry` (`redmine.rs` lines 117-173),
with the single network exchange modelled as a function `server` from
the request payload to the HTTP response; the `Display` of the remote
status is modelled by its numeric code. -/
def sync_time_entry (cfg : RedmineConfig) (activity : ActivityInfo)
    (ticket_id : String) (server : TimeEntryData → HttpResponse) :
    Except String SyncResult :=
  match parseI64 ticket_id with
  | none => Except.error ("Invalid ticket ID: " ++ ticket_id)
  | some issue_id =>
      let response := server (sync_request cfg activity issue_id)
      if isSuccessStatus response.status then
        match decodeTimeEntryId response.body with
        | some entry_id =>
            Except.ok ⟨true, "Created time entry #" ++ toString entry_id,
              some (toString entry_id)⟩
        | none => Except.error "Failed to parse response"
      else
        Except.error ("Redmine API error (" ++ toString response.status ++ "): "
          ++ response.body)

/-- A concrete stand-in for `Regex::new(..).ok()`: compiles the two
demo patterns and rejects everything else (e.g. an unclosed character
class). -/
def demoCompile : String → Option SimpleRegex
  | "#(\\d+)" => some hashPattern
  | "ISSUE-(\\d+)" => some issuePattern
  | _ => none

/-- A concrete Redmine configuration. -/
def demoCfg : RedmineConfig := ⟨"https://redmine.example.com", "key", some 9, []⟩

/-- A server answering 201 with the canonical time-entry body. -/
def okServer : TimeEntryData → HttpResponse :=
  fun _ => ⟨201, "\x7b\"time_entry\":\x7b\"id\":55\x7d\x7d"⟩

/-- A server answering 401. -/
def authFailServer : TimeEntryData → HttpResponse :=
  fun _ => ⟨401, "unauthorized"⟩

theorem recInv_cleared : RecInv clearedState := fun _ => rfl

theorem tick_preserves_recInv (tracking : Bool)
    (probe : Option (String × String × Option String)) (now : Int)
    (s : RecState) (store : List Row) (h : RecInv s) :
    RecInv (tick tracking probe now s store).1 := by
  unfold tick
  rcases tracking with _ | _
  · cases hs : s.activity_start <;> simp [RecInv]
  · rcases probe with _ | ⟨p, t, d⟩
    · simpa using h
    · by_cases hc : p ≠ s.last_process ∨ t ≠ s.last_title ∨ d ≠ s.last_domain
      · cases hs : s.activity_start <;> simp [hc, RecInv]
      · simpa [hc] using h

theorem charListLe_total : ∀ a b, charListLe a b = true ∨ charListLe b a = true
  | [], _ => Or.inl rfl
  | _ :: _, [] => Or.inr rfl
  | a :: as, b :: bs => by
      rcases lt_trichotomy a b with h | h | h
      · left; simp [charListLe, h]
      · subst h
        rcases charListLe_total as bs with ih | ih
        · left; simpa [charListLe] using ih
        · right; simpa [charListLe] using ih
      · right; simp [charListLe, h]

theorem charListLe_trans : ∀ a b c, charListLe a b = true → charListLe b c = true →
    charListLe a c = true
  | [], _, _, _, _ => rfl
  | _ :: _, [], _, h, _ => by simp [charListLe] at h
  | _ :: _, _ :: _, [], _, h => by simp [charListLe] at h
  | a :: as, b :: bs, c :: cs, h1, h2 => by
      by_cases hab : a < b
      · by_cases hbc : b < c
        · simp [charListLe, lt_trans hab hbc]
        · by_cases hcb : c < b
          · simp [charListLe, hbc, hcb] at h2
          · have hbceq : b = c := le_antisymm (not_lt.mp hcb) (not_lt.mp hbc)
            subst hbceq
            simp [charListLe, hab]
      · by_cases hba : b < a
        · simp [charListLe, hab, hba] at h1
        · have habeq : a = b := le_antisymm (not_lt.mp hba) (not_lt.mp hab)
          subst habeq
          simp only [charListLe, lt_self_iff_false, if_false] at h1
          by_cases hac : a < c
          · simp [charListLe, hac]
          · by_cases hca : c < a
            · simp [charListLe, hac, hca] at h2
            · have haceq : a = c := le_antisymm (not_lt.mp hca) (not_lt.mp hac)
              subst haceq
              simp only [charListLe, lt_self_iff_false, if_false] at h2 ⊢
              exact charListLe_trans as bs cs h1 h2

instance : IsTotal ActivityRecord byStart :=
  ⟨fun a b => charListLe_total a.start_time.data b.start_time.data⟩

instance : IsTrans ActivityRecord byStart := ⟨fun _ _ _ => charListLe_trans _ _ _⟩

instance : IsTotal (String × Int) byTotalDesc := ⟨fun a b => le_total b.2 a.2⟩

instance : IsTrans (String × Int) byTotalDesc := ⟨fun _ _ _ h1 h2 => le_trans h2 h1⟩

theorem sum_map_share (T : ℚ) (l : List Int) :
    (l.map fun s : Int => (s : ℚ) / T * 100).sum = ((l.sum : ℚ)) / T * 100 := by
  induction l with
  | nil => simp
  | cons a tl ih =>
      simp only [List.map_cons, List.sum_cons, ih, Int.cast_add]
      rw [add_div, add_mul]

theorem pct_sum (l : List Int) (h : 0 < l.sum) :
    (l.map fun s => pct l.sum s).sum = 100 := by
  have hq : (0 : ℚ) < ((l.sum : ℚ)) := by exact_mod_cast h
  have hmap : (l.map fun s => pct l.sum s)
      = l.map fun s : Int => (s : ℚ) / ((l.sum : ℚ)) * 100 :=
    List.map_congr_left fun s _ => by simp [pct, h]
  rw [hmap, sum_map_share, div_self (ne_of_gt hq), one_mul]

theorem mem_rankGroups_iff {rows : List ActivityRecord} {keyf : ActivityRecord → String}
    {x : String × Int} :
    x ∈ rankGroups rows keyf ↔
      x.1 ∈ (rows.map keyf).dedup ∧ x.2 = groupTotal rows keyf x.1 := by
  rw [show rankGroups rows keyf = List.insertionSort byTotalDesc (groupSums rows keyf)
      from rfl, List.mem_insertionSort]
  constructor
  · intro hx
    rcases List.mem_map.mp hx with ⟨k, hk, hxk⟩
    rw [← hxk]
    exact ⟨hk, rfl⟩
  · rintro ⟨h1, h2⟩
    refine List.mem_map.mpr ⟨x.1, h1, ?_⟩
    obtain ⟨a, b⟩ := x
    simp only at h2 ⊢
    rw [h2]

/-- C4: `get_activities(day)` returns exactly the stored intervals whose
start timestamp lies in `[day 00:00:00, day 23:59:59]`, in ascending
order of start time; an interval starting at 23:59:59 of the day is
included and one starting at 00:00:00 of the next day is not. -/
theorem get_activities_range_sorted (db : List ActivityRecord) (date : String) :
    List.Perm (get_activities db date) (dayRows db date) ∧
    List.Sorted byStart (get_activities db date) ∧
    (∀ r, r ∈ get_activities db date ↔
        r ∈ db ∧ strLe (startOfDay date) r.start_time = true ∧
          strLe r.start_time (endOfDay date) = true) ∧
    inDay "2024-01-01"
      ⟨1, "p", "w", none, "2024-01-01T23:59:59", "2024-01-02T00:00:01", 2⟩ = true ∧
    inDay "2024-01-01"
      ⟨2, "p", "w", none, "2024-01-02T00:00:00", "2024-01-02T00:00:02", 2⟩ = false := by
  refine ⟨List.perm_insertionSort _ _, List.sorted_insertionSort _ _, ?_,
    by decide, by decide⟩
  intro r
  rw [show get_activities db date = List.insertionSort byStart (dayRows db date) from rfl,
    List.Perm.mem_iff (List.perm_insertionSort _ _)]
  simp [dayRows, List.mem_filter, inDay]

/-- C3: in `get_app_summary(day)` every group's percentage is its summed
duration's share of the grouped total times 100 (0 when the total is 0);
the returned percentages sum to exactly 100 — in particular to within
±0.01 — whenever the grouped total is positive, and the result is the
empty list when no intervals exist for that day. -/
theorem app_summary_percentages (db : List ActivityRecord) (date : String) :
    (dayRows db date = [] → get_app_summary db date = []) ∧
    (∀ g ∈ get_app_summary db date,
        g.total_seconds
          = groupTotal (dayRows db date) (fun r => r.process_name) g.process_name ∧
        g.percentage
          = pct (((get_app_summary db date).map fun x => x.total_seconds).sum)
              g.total_seconds) ∧
    (0 < ((get_app_summary db date).map fun x => x.total_seconds).sum →
        ((get_app_summary db date).map fun x => x.percentage).sum = 100 ∧
        |((get_app_summary db date).map fun x => x.percentage).sum - 100| ≤ 1 / 100) ∧
    (((get_app_summary db date).map fun x => x.total_seconds).sum = 0 →
        ∀ g ∈ get_app_summary db date, g.percentage = 0) := by
  have hres : get_app_summary db date
      = (rankGroups (dayRows db date) fun r => r.process_name).map
          (fun g => ⟨g.1, g.2,
            pct (((rankGroups (dayRows db date) fun r => r.process_name).map
              fun g2 => g2.2).sum) g.2⟩) := rfl
  have htot : (get_app_summary db date).map (fun x => x.total_seconds)
      = (rankGroups (dayRows db date) fun r => r.process_name).map fun g => g.2 := by
    rw [hres, List.map_map]; rfl
  refine ⟨?_, ?_, ?_, ?_⟩
  · intro h
    rw [hres]
    simp [rankGroups, groupSums, h]
  · intro g hg
    rw [hres] at hg
    rcases List.mem_map.mp hg with ⟨x, hx, rfl⟩
    rcases mem_rankGroups_iff.mp hx with ⟨hk, htotx⟩
    refine ⟨htotx, ?_⟩
    rw [htot]
  · intro hpos
    rw [htot] at hpos
    have hperc : (get_app_summary db date).map (fun x => x.percentage)
        = ((rankGroups (dayRows db date) fun r => r.process_name).map fun g => g.2).map
            (fun s => pct (((rankGroups (dayRows db date) fun r => r.process_name).map
              fun g2 => g2.2).sum) s) := by
      rw [hres, List.map_map, List.map_map]; rfl
    rw [hperc]
    have h100 := pct_sum
      ((rankGroups (dayRows db date) fun r => r.process_name).map fun g => g.2) hpos
    exact ⟨h100, by rw [h100]; norm_num⟩
  · intro h0 g hg
    rw [htot] at h0
    rw [hres] at hg
    rcases List.mem_map.mp hg with ⟨x, hx, rfl⟩
    show pct (((rankGroups (dayRows db date) fun r => r.process_name).map
      fun g2 => g2.2).sum) x.2 = 0
    rw [h0]
    simp [pct]

theorem hasDomain_key_eq (k : String) (hk : k ≠ "") (r : ActivityRecord) :
    (decide (domainKey r = k) && hasDomain r) = decide (r.domain = some k) := by
  rcases hr : r.domain with _ | d
  · simp [hasDomain, domainKey, hr]
  · by_cases hdk : d = k
    · subst hdk
      simp [hasDomain, domainKey, hr, hk]
    · simp [hasDomain, domainKey, hr, hdk]

theorem groupTotal_domain (rows : List ActivityRecord) (k : String) (hk : k ≠ "") :
    groupTotal (rows.filter hasDomain) domainKey k
      = ((rows.filter fun r => r.domain = some k).map fun r => r.duration_seconds).sum := by
  unfold groupTotal
  rw [List.filter_filter, List.filter_congr fun r _ => hasDomain_key_eq k hk r]

theorem domainKeys_ne_empty {rows : List ActivityRecord} {k : String}
    (hk : k ∈ ((rows.filter hasDomain).map domainKey).dedup) : k ≠ "" := by
  rcases List.mem_map.mp (List.mem_dedup.mp hk) with ⟨r, hr, rfl⟩
  have hd := (List.mem_filter.mp hr).2
  rcases hrd : r.domain with _ | d
  · simp [hasDomain, hrd] at hd
  · have hne : d ≠ "" := by simpa [hasDomain, hrd] using hd
    simpa [domainKey, hrd] using hne

theorem mem_domainKeys_iff (rows : List ActivityRecord) (dn : String) (hdn : dn ≠ "") :
    dn ∈ ((rows.filter hasDomain).map domainKey).dedup ↔
      ∃ r ∈ rows, r.domain = some dn := by
  rw [List.mem_dedup, List.mem_map]
  constructor
  · rintro ⟨r, hr, rfl⟩
    rcases List.mem_filter.mp hr with ⟨hrm, hd⟩
    rcases hrd : r.domain with _ | d
    · simp [hasDomain, hrd] at hd
    · exact ⟨r, hrm, by simp [domainKey, hrd]⟩
  · rintro ⟨r, hr, hrd⟩
    refine ⟨r, List.mem_filter.mpr ⟨hr, ?_⟩, ?_⟩
    · simp [hasDomain, hrd, hdn]
    · simp [domainKey, hrd]

/-- C7: `get_domain_summary(day)` excludes every record with a null or
empty domain from the groups and from the grouped total, groups the
remaining records by domain with summed durations, and returns the
groups in descending order of total duration. -/
theorem domain_summary_excludes_empty (db : List ActivityRecord) (date : String) :
    (∀ g ∈ get_domain_summary db date,
        g.domain ≠ "" ∧
        g.total_seconds
          = (((dayRows db date).filter fun r => r.domain = some g.domain).map
              fun r => r.duration_seconds).sum ∧
        g.percentage
          = pct (((get_domain_summary db date).map fun x => x.total_seconds).sum)
              g.total_seconds) ∧
    (∀ dn : String, dn ≠ "" →
        ((∃ g ∈ get_domain_summary db date, g.domain = dn) ↔
          ∃ r ∈ dayRows db date, r.domain = some dn)) ∧
    List.Sorted (fun a b => b.total_seconds ≤ a.total_seconds)
      (get_domain_summary db date) := by
  have hres : get_domain_summary db date
      = (rankGroups ((dayRows db date).filter hasDomain) domainKey).map
          (fun g => ⟨g.1, g.2,
            pct (((rankGroups ((dayRows db date).filter hasDomain) domainKey).map
              fun g2 => g2.2).sum) g.2⟩) := rfl
  have htot : (get_domain_summary db date).map (fun x => x.total_seconds)
      = (rankGroups ((dayRows db date).filter hasDomain) domainKey).map fun g => g.2 := by
    rw [hres, List.map_map]; rfl
  refine ⟨?_, ?_, ?_⟩
  · intro g hg
    rw [hres] at hg
    rcases List.mem_map.mp hg with ⟨x, hx, rfl⟩
    rcases mem_rankGroups_iff.mp hx with ⟨hk, htotx⟩
    have hne : x.1 ≠ "" := domainKeys_ne_empty hk
    refine ⟨hne, ?_, ?_⟩
    · show x.2
        = (((dayRows db date).filter fun r => r.domain = some x.1).map
            fun r => r.duration_seconds).sum
      rw [htotx, groupTotal_domain (dayRows db date) x.1 hne]
    · show pct (((rankGroups ((dayRows db date).filter hasDomain) domainKey).map
          fun g2 => g2.2).sum) x.2
        = pct (((get_domain_summary db date).map fun x => x.total_seconds).sum) x.2
      rw [htot]
  · intro dn hdn
    constructor
    · rintro ⟨g, hg, rfl⟩
      rw [hres] at hg
      rcases List.mem_map.mp hg with ⟨x, hx, rfl⟩
      rcases mem_rankGroups_iff.mp hx with ⟨hk, _⟩
      exact (mem_domainKeys_iff (dayRows db date) x.1 hdn).mp hk
    · rintro ⟨r, hr, hrd⟩
      have hk : dn ∈ (((dayRows db date).filter hasDomain).map domainKey).dedup :=
        (mem_domainKeys_iff (dayRows db date) dn hdn).mpr ⟨r, hr, hrd⟩
      have hxmem : (dn, groupTotal ((dayRows db date).filter hasDomain) domainKey dn)
          ∈ rankGroups ((dayRows db date).filter hasDomain) domainKey :=
        mem_rankGroups_iff.mpr ⟨hk, rfl⟩
      rw [hres]
      exact ⟨_, List.mem_map_of_mem _ hxmem, rfl⟩
  · rw [hres]
    exact List.Pairwise.map _ (fun a b hab => hab)
      (List.sorted_insertionSort byTotalDesc _)

theorem app_summary_percentages_witness :
    ((get_app_summary demoDb "2024-01-01").map fun x => x.percentage).sum = 100 :=
  ((app_summary_percentages demoDb "2024-01-01").2.2.1 (by decide)).1

theorem get_activities_range_sorted_witness :
    List.Perm (get_activities demoDb "2024-01-01") (dayRows demoDb "2024-01-01") ∧
    List.Sorted byStart (get_activities demoDb "2024-01-01") :=
  ⟨(get_activities_range_sorted demoDb "2024-01-01").1,
   (get_activities_range_sorted demoDb "2024-01-01").2.1⟩

theorem domain_summary_excludes_empty_witness :
    List.Sorted (fun a b => b.total_seconds ≤ a.total_seconds)
      (get_domain_summary demoDb "2024-01-01") ∧
    ((∃ g ∈ get_domain_summary demoDb "2024-01-01", g.domain = "tracker.example.com") ↔
      ∃ r ∈ dayRows demoDb "2024-01-01", r.domain = some "tracker.example.com") :=
  ⟨(domain_summary_excludes_empty demoDb "2024-01-01").2.2,
   (domain_summary_excludes_empty demoDb "2024-01-01").2.1 "tracker.example.com"
     (by decide)⟩

/-- Sanity check: the end-to-end scenario of the specification evaluates
as stated — one activity returned for the day, one domain group covering
100 percent. -/
theorem end_to_end_demo :
    get_activities demoDb "2024-01-01" = [demoRow] ∧
    get_domain_summary demoDb "2024-01-01"
      = [⟨"tracker.example.com", 1800, pct 1800 1800⟩] ∧
    pct 1800 1800 = 100 := by
  refine ⟨by decide, rfl, ?_⟩
  norm_num [pct]

/-- C1: an activity interval is persisted only if its process name is
non-empty and its duration `now - start` is at least one second; any
candidate with an empty process name, sub-second or negative duration is
discarded without a store write, so no persisted row ever has
`duration_seconds < 1` (or an empty process name). -/
theorem save_activity_persists_only_valid
    (store : List Row) (p w : String) (d : Option String) (start now : Int)
    (hinv : ∀ r ∈ store, r.process_name ≠ "" ∧ 1 ≤ r.duration_seconds) :
    (p = "" ∨ now - start < 1 → save_activity store p w d start now = store) ∧
    (∀ r ∈ save_activity store p w d start now,
        r.process_name ≠ "" ∧ 1 ≤ r.duration_seconds) ∧
    (save_activity store p w d start now ≠ store →
        p ≠ "" ∧ 1 ≤ now - start ∧
        save_activity store p w d start now
          = store ++ [⟨p, w, d, start, now, now - start⟩]) := by
  unfold save_activity
  by_cases hp : p = ""
  · simpa [hp] using hinv
  · by_cases hdur : now - start < 1
    · simpa [hp, hdur] using hinv
    · refine ⟨by intro h; rcases h with h | h; exact absurd h hp; exact absurd h hdur,
        ?_, fun _ => ⟨hp, by omega, by simp [hp, hdur]⟩⟩
      intro r hr
      rcases (by simpa [hp, hdur] using hr :
          r ∈ store ∨ r = (⟨p, w, d, start, now, now - start⟩ : Row)) with h | h
      · exact hinv r h
      · subst h
        exact ⟨hp, show (1 : Int) ≤ now - start by omega⟩

theorem save_activity_persists_only_valid_witness :
    ("proc" = "" ∨ (5 : Int) - 0 < 1 → save_activity [] "proc" "" none 0 5 = []) ∧
    (∀ r ∈ save_activity [] "proc" "" none 0 5,
        r.process_name ≠ "" ∧ 1 ≤ r.duration_seconds) ∧
    (save_activity [] "proc" "" none 0 5 ≠ [] →
        "proc" ≠ "" ∧ 1 ≤ (5 : Int) - 0 ∧
        save_activity [] "proc" "" none 0 5
          = [] ++ [⟨"proc", "", none, 0, 5, 5 - 0⟩]) :=
  save_activity_persists_only_valid [] "proc" "" none 0 5 (by simp)

/-- C2: one enabled tick of the recorder loop: a `none` probe leaves the
state and store untouched; a probe triple that differs from the last
observed triple closes any open interval (attempting to persist it) and
opens a fresh one starting at the tick time; when no interval is open and
the probe yields a real process name a fresh interval is opened without
any emission; an unchanged triple with an open interval changes nothing,
keeping the original start timestamp. -/
theorem recorder_tick_enabled_transitions
    (s : RecState) (store : List Row) (now st : Int)
    (p t : String) (d : Option String) (hs : RecInv s) :
    tick true none now s store = (s, store) ∧
    (¬(p = s.last_process ∧ t = s.last_title ∧ d = s.last_domain) →
      tick true (some (p, t, d)) now s store =
        (⟨p, t, d, some now⟩,
          match s.activity_start with
          | some st0 =>
              save_activity store s.last_process s.last_title s.last_domain st0 now
          | none => store)) ∧
    (s.activity_start = none → p ≠ "" →
      tick true (some (p, t, d)) now s store = (⟨p, t, d, some now⟩, store)) ∧
    (s.activity_start = some st →
      p = s.last_process → t = s.last_title → d = s.last_domain →
      tick true (some (p, t, d)) now s store = (s, store)) := by
  refine ⟨by simp [tick], ?_, ?_, ?_⟩
  · intro hne
    have hc : p ≠ s.last_process ∨ t ≠ s.last_title ∨ d ≠ s.last_domain := by
      by_contra h
      push_neg at h
      exact hne ⟨h.1, h.2.1, h.2.2⟩
    cases hst : s.activity_start <;> simp [tick, hc, hst]
  · intro hnone hp
    have hclear := hs hnone
    subst hclear
    simp [tick, hp, clearedState]
  · intro hst hp ht hd
    subst hp; subst ht; subst hd
    simp [tick]

theorem recorder_tick_enabled_transitions_witness :
    RecInv ⟨"a", "b", none, some 0⟩ ∧
    (tick true none 7 ⟨"a", "b", none, some 0⟩ [] = (⟨"a", "b", none, some 0⟩, []) ∧
    (¬("x" = "a" ∧ "y" = "b" ∧ (none : Option String) = none) →
      tick true (some ("x", "y", none)) 7 ⟨"a", "b", none, some 0⟩ [] =
        (⟨"x", "y", none, some 7⟩, save_activity [] "a" "b" none 0 7)) ∧
    ((some 0 : Option Int) = none → "x" ≠ "" →
      tick true (some ("x", "y", none)) 7 ⟨"a", "b", none, some 0⟩ [] =
        (⟨"x", "y", none, some 7⟩, [])) ∧
    ((some 0 : Option Int) = some 0 → "x" = "a" → "y" = "b" →
      (none : Option String) = none →
      tick true (some ("x", "y", none)) 7 ⟨"a", "b", none, some 0⟩ [] =
        (⟨"a", "b", none, some 0⟩, []))) :=
  ⟨by intro h; simp at h,
   recorder_tick_enabled_transitions ⟨"a", "b", none, some 0⟩ [] 7 0 "x" "y" none
     (by intro h; simp at h)⟩

/-- C6: with an open interval that passes the minimum-duration filter,
the tick observing tracking disabled emits exactly one row, ending at
that tick's time, and clears the state; further disabled ticks emit
nothing; the first enabled tick afterwards opens a fresh interval whose
start is the new tick's time, emitting nothing. -/
theorem toggle_off_on_single_emission
    (s : RecState) (store : List Row) (st t1 t2 t3 : Int)
    (probe1 probe3 : Option (String × String × Option String))
    (p t : String) (d : Option String)
    (hopen : s.activity_start = some st) (hp : s.last_process ≠ "")
    (hdur : 1 ≤ t1 - st) (hp2 : p ≠ "") :
    tick false probe1 t1 s store =
      (clearedState,
       store ++ [⟨s.last_process, s.last_title, s.last_domain, st, t1, t1 - st⟩]) ∧
    tick false probe3 t3 clearedState
        (store ++ [⟨s.last_process, s.last_title, s.last_domain, st, t1, t1 - st⟩]) =
      (clearedState,
       store ++ [⟨s.last_process, s.last_title, s.last_domain, st, t1, t1 - st⟩]) ∧
    tick true (some (p, t, d)) t2 clearedState
        (store ++ [⟨s.last_process, s.last_title, s.last_domain, st, t1, t1 - st⟩]) =
      (⟨p, t, d, some t2⟩,
       store ++ [⟨s.last_process, s.last_title, s.last_domain, st, t1, t1 - st⟩]) := by
  refine ⟨?_, ?_, ?_⟩
  · simp [tick, hopen, save_activity, hp, show ¬(t1 - st < 1) by omega]
  · simp [tick, clearedState]
  · simp [tick, clearedState, hp2]

theorem toggle_off_on_single_emission_witness :
    tick false none 10 ⟨"a", "b", none, some 0⟩ [] =
      (clearedState, [] ++ [⟨"a", "b", none, 0, 10, 10 - 0⟩]) ∧
    tick false none 11 clearedState ([] ++ [⟨"a", "b", none, 0, 10, 10 - 0⟩]) =
      (clearedState, [] ++ [⟨"a", "b", none, 0, 10, 10 - 0⟩]) ∧
    tick true (some ("x", "y", none)) 12 clearedState
        ([] ++ [⟨"a", "b", none, 0, 10, 10 - 0⟩]) =
      (⟨"x", "y", none, some 12⟩, [] ++ [⟨"a", "b", none, 0, 10, 10 - 0⟩]) :=
  toggle_off_on_single_emission ⟨"a", "b", none, some 0⟩ [] 0 10 12 11 none none
    "x" "y" none rfl (by simp) (by omega) (by simp)

theorem extract_skip_misses (activity : ActivityInfo) :
    ∀ (rules1 rest : List (SimpleRegex × String)),
      (∀ p ∈ rules1, captureFirst p.1 (get_source_text activity p.2).data = none) →
      extract_ticket_id (rules1 ++ rest) activity = extract_ticket_id rest activity
  | [], _, _ => rfl
  | (re0, s0) :: tl, rest, h => by
      have h0 := h (re0, s0) (List.mem_cons_self _ _)
      simp only at h0
      simp only [List.cons_append, extract_ticket_id, h0]
      exact extract_skip_misses activity tl rest fun p hp => h p (List.mem_cons_of_mem _ hp)

/-- C5 (amended): extraction walks the compiled rules in configured
order and returns the first capture group of the first rule whose
pattern matches the selected source text with group 1 participating —
the captured text may be empty — short-circuiting on that first match;
when every rule misses, the result is `none` ("no ticket found"), not an
error.  With rules `[#(\d+), ISSUE-(\d+)]` on window title
`"Fix #42 ISSUE-7"`, extraction returns `"42"`. -/
theorem extract_first_match
    (rules1 rules2 : List (SimpleRegex × String)) (re : SimpleRegex) (src : String)
    (activity : ActivityInfo) (g : List Char)
    (hmiss : ∀ p ∈ rules1, captureFirst p.1 (get_source_text activity p.2).data = none)
    (hhit : captureFirst re (get_source_text activity src).data = some g) :
    extract_ticket_id (rules1 ++ (re, src) :: rules2) activity = some (String.mk g) ∧
    extract_ticket_id rules1 activity = none ∧
    extract_ticket_id [(hashPattern, "window_title"), (issuePattern, "window_title")]
      demoActivity = some "42" := by
  refine ⟨?_, ?_, by decide⟩
  · rw [extract_skip_misses activity rules1 ((re, src) :: rules2) hmiss]
    simp [extract_ticket_id, hhit]
  · have h := extract_skip_misses activity rules1 [] hmiss
    simpa [extract_ticket_id] using h

theorem extract_first_match_witness :
    extract_ticket_id
      ([] ++ (hashPattern, "window_title") :: [(issuePattern, "window_title")])
      demoActivity = some (String.mk ['4', '2']) ∧
    extract_ticket_id [] demoActivity = none ∧
    extract_ticket_id [(hashPattern, "window_title"), (issuePattern, "window_title")]
      demoActivity = some "42" :=
  extract_first_match [] [(issuePattern, "window_title")] hashPattern "window_title"
    demoActivity ['4', '2'] (by simp) (by decide)

/-- C5 counterexample: with the single rule `x(y*)` on the window title
and title `"x"` the pattern matches and group 1 participates while
capturing the empty string; the code returns `Some("")`, whereas the
claim — only a rule matching with a NON-EMPTY first capture group wins,
otherwise "no ticket found" — demands `none` here (shown by the
side-by-side definition following the claim's words). -/
theorem extract_empty_capture_cex :
    extract_ticket_id [(emptyCapPattern, "window_title")] cexActivity = some "" ∧
    extract_ticket_id_spec [(emptyCapPattern, "window_title")] cexActivity = none := by
  constructor <;> decide

/-- C10: an extraction rule whose source selector is none of
`window_title`, `process_name` and `domain` is evaluated against the
window title: the unrecognized selector silently falls back to
`window_title`, and extraction with such a rule behaves exactly as with
`window_title`. -/
theorem unknown_source_falls_back
    (activity : ActivityInfo) (src : String) (re : SimpleRegex)
    (h1 : src ≠ "window_title") (h2 : src ≠ "process_name") (h3 : src ≠ "domain") :
    get_source_text activity src = activity.window_title ∧
    extract_ticket_id [(re, src)] activity
      = extract_ticket_id [(re, "window_title")] activity := by
  have hs : get_source_text activity src = activity.window_title := by
    simp [get_source_text, h1, h2, h3]
  exact ⟨hs, by simp [extract_ticket_id, get_source_text, h1, h2, h3]⟩

theorem unknown_source_falls_back_witness :
    get_source_text demoActivity "bogus" = demoActivity.window_title ∧
    extract_ticket_id [(hashPattern, "bogus")] demoActivity
      = extract_ticket_id [(hashPattern, "window_title")] demoActivity :=
  unknown_source_falls_back demoActivity "bogus" hashPattern
    (by decide) (by decide) (by decide)

theorem compileRules_forall2 (compile : String → Option SimpleRegex) :
    ∀ rules : List ExtractionRule,
      List.Forall₂ (fun (c : SimpleRegex × String) (rule : ExtractionRule) =>
          compile rule.pattern = some c.1 ∧ c.2 = rule.source)
        (compileRules compile rules)
        (rules.filter fun rule => (compile rule.pattern).isSome)
  | [] => List.Forall₂.nil
  | r :: tl => by
      rcases hc : compile r.pattern with _ | re
      · simpa [compileRules, List.filterMap_cons, hc, List.filter_cons] using
          compileRules_forall2 compile tl
      · have ih := compileRules_forall2 compile tl
        simp only [compileRules, List.filterMap_cons, hc, Option.map_some,
          List.filter_cons, Option.isSome_some, if_pos]
        exact List.Forall₂.cons ⟨hc, rfl⟩ ih

theorem load_from_config_ok (compile : String → Option SimpleRegex) :
    ∀ integrations : List IntegrationEntry,
      ∃ plugins, load_from_config compile integrations = Except.ok plugins
  | [] => ⟨[], rfl⟩
  | entry :: rest => by
      rcases load_from_config_ok compile rest with ⟨plugins, hplugins⟩
      by_cases he : entry.enabled
      · rcases hcfg : entry.config with ⟨rc⟩
        refine ⟨⟨entry.name, entry.enabled, rc, compileRules compile rc.rules⟩ :: plugins, ?_⟩
        simp [load_from_config, he, hcfg, RedmineIntegration.new, hplugins]
      · exact ⟨plugins, by simp [load_from_config, he, hplugins]⟩

/-- C9: extraction rules whose regex pattern fails to compile are
silently dropped at plugin construction while all compiling rules are
kept in configured order (the compiled list corresponds pairwise, in
order, to the sublist of rules whose pattern compiles); construction
always returns `Ok`, and a failing rule never fails the configuration
load. -/
theorem rules_compile_silent_drop (compile : String → Option SimpleRegex)
    (name : String) (enabled : Bool) (config : RedmineConfig)
    (integrations : List IntegrationEntry) :
    List.Forall₂ (fun (c : SimpleRegex × String) (rule : ExtractionRule) =>
        compile rule.pattern = some c.1 ∧ c.2 = rule.source)
      (compileRules compile config.rules)
      (config.rules.filter fun rule => (compile rule.pattern).isSome) ∧
    RedmineIntegration.new compile name enabled config
      = Except.ok ⟨name, enabled, config, compileRules compile config.rules⟩ ∧
    (∃ plugins, load_from_config compile integrations = Except.ok plugins) :=
  ⟨compileRules_forall2 compile config.rules, rfl, load_from_config_ok compile integrations⟩

/-- Sanity check: a rule with an unclosed character class is dropped
while the compiling rule before and after it survive in order. -/
theorem compile_drop_demo :
    compileRules demoCompile
      [⟨"#(\\d+)", "window_title"⟩, ⟨"[invalid", "domain"⟩,
        ⟨"ISSUE-(\\d+)", "process_name"⟩]
      = [(hashPattern, "window_title"), (issuePattern, "process_name")] := by
  decide

/-- C8: for a numeric ticket id the request carries hours equal to
`duration_seconds / 3600`, a comment built from the process name and the
window title, and the calendar-date part of the start time; a 2xx
response whose body decodes to a time-entry id makes `sync_time_entry`
return success with that id as the external id, and a non-2xx response
makes it return an error carrying the remote status and body, from the
single request issued. -/
theorem sync_time_entry_result
    (cfg : RedmineConfig) (activity : ActivityInfo) (ticket_id : String)
    (server : TimeEntryData → HttpResponse) (n entry_id : Int)
    (hparse : parseI64 ticket_id = some n) :
    (sync_request cfg activity n).hours = (activity.duration_seconds : ℚ) / 3600 ∧
    (sync_request cfg activity n).comments
      = activity.process_name ++ " - " ++ activity.window_title ∧
    (sync_request cfg activity n).spent_on = datePart activity.start_time ∧
    (isSuccessStatus (server (sync_request cfg activity n)).status = true →
      decodeTimeEntryId (server (sync_request cfg activity n)).body = some entry_id →
      sync_time_entry cfg activity ticket_id server
        = Except.ok ⟨true, "Created time entry #" ++ toString entry_id,
            some (toString entry_id)⟩) ∧
    (isSuccessStatus (server (sync_request cfg activity n)).status = false →
      sync_time_entry cfg activity ticket_id server
        = Except.error ("Redmine API error ("
            ++ toString (server (sync_request cfg activity n)).status ++ "): "
            ++ (server (sync_request cfg activity n)).body)) := by
  refine ⟨rfl, rfl, rfl, ?_, ?_⟩
  · intro hok hdec
    simp [sync_time_entry, hparse, hok, hdec]
  · intro hbad
    simp [sync_time_entry, hparse, hbad]

theorem sync_time_entry_result_witness :
    sync_time_entry demoCfg demoActivity "55" okServer
      = Except.ok ⟨true, "Created time entry #55", some "55"⟩ ∧
    sync_time_entry demoCfg demoActivity "55" authFailServer
      = Except.error ("Redmine API error (401): unauthorized") :=
  ⟨(sync_time_entry_result demoCfg demoActivity "55" okServer 55 55
      (by decide)).2.2.2.1 (by decide) (by decide),
   (sync_time_entry_result demoCfg demoActivity "55" authFailServer 55 55
      (by decide)).2.2.2.2 (by decide)⟩

end TimeTracker
